import Mathlib

/-!
Verification of the API-responsiveness aggregation-and-validation engine
(`api_responsiveness_prometheus.go`, package `slos`).

Durations are modelled as `Int` nanoseconds (Go's `time.Duration` is an
`int64` nanosecond count).  Prometheus sample values (Go `float64`) are
modelled as exact rationals `ℚ`.  The result of `strconv.ParseFloat` on a
sample's `quantile` tag is modelled as a pre-parsed `Option ℚ` field:
`none` stands for a tag that does not parse as a number.
-/

/-- `time.Second` in nanoseconds. -/
def timeSecond : Int := 1000000000

/-- `time.Minute` in nanoseconds. -/
def timeMinute : Int := 60 * timeSecond

/-- `time.Millisecond` in nanoseconds. -/
def timeMillisecond : Int := 1000000

/-- `resourceThreshold time.Duration = 1 * time.Second`. -/
def resourceThreshold : Int := 1 * timeSecond

/-- `namespaceThreshold time.Duration = 5 * time.Second`. -/
def namespaceThreshold : Int := 5 * timeSecond

/-- `clusterThreshold time.Duration = 30 * time.Second`. -/
def clusterThreshold : Int := 30 * timeSecond

/-- `latencyWindowSize = 5 * time.Minute`. -/
def latencyWindowSize : Int := 5 * timeMinute

/-- Modelled from the spec: the `measurementutil.LatencyMetric` type lives
outside this repository slice; per the data model it "holds three percentile
values (50th, 90th, 99th), each independently settable". -/
structure LatencyMetric where
  Perc50 : Int
  Perc90 : Int
  Perc99 : Int
deriving DecidableEq

/-- Modelled from the spec: `LatencyMetric.SetQuantile` is outside this
repository slice; per the spec a latency sample's parsed quantile selects
"the corresponding percentile on that key's distribution", the three
percentiles being the 50th, 90th and 99th. -/
def LatencyMetric.SetQuantile (l : LatencyMetric) (quantile : ℚ) (latency : Int) : LatencyMetric :=
  if quantile = mkRat 1 2 then { l with Perc50 := latency }
  else if quantile = mkRat 9 10 then { l with Perc90 := latency }
  else if quantile = mkRat 99 100 then { l with Perc99 := latency }
  else l

/-- Modelled from the spec: `LatencyMetric.VerifyThreshold` is outside this
repository slice; per the spec "a record fails when its 99th-percentile
latency exceeds its selected objective".  `none` models a nil error. -/
def LatencyMetric.VerifyThreshold (l : LatencyMetric) (threshold : Int) : Option String :=
  if threshold < l.Perc99 then some "perc99 above threshold" else none

/-- The `apiCallMetric` struct. -/
structure apiCallMetric where
  Resource : String
  Subresource : String
  Verb : String
  Scope : String
  Latency : LatencyMetric
  Count : Int
  SlowCount : Int
deriving DecidableEq

/-- `getSLOThreshold`: non-LIST verbs get the per-resource threshold,
cluster-scoped LIST the cluster threshold, other LISTs the namespace one. -/
def apiCallMetric.getSLOThreshold (ap : apiCallMetric) : Int :=
  if ap.Verb ≠ "LIST" then resourceThreshold
  else if ap.Scope = "cluster" then clusterThreshold
  else namespaceThreshold

/-- `Validate`: check the latency against the SLO threshold, with the
`allowedSlowCalls` exemption.  `none` models a nil error (the record
passes); `some _` models a returned violation error. -/
def apiCallMetric.Validate (ap : apiCallMetric) (allowedSlowCalls : Int) : Option String :=
  let threshold := ap.getSLOThreshold
  match ap.Latency.VerifyThreshold threshold with
  | some _ =>
    if allowedSlowCalls > 0 ∧ ap.SlowCount ≤ allowedSlowCalls then none
    else some "expected perc99 at most threshold"
  | none => none

/-- The `apiCallMetrics` aggregate: a keyed mapping, modelled as an
association list in insertion order (the Go map is only used as a map). -/
structure apiCallMetrics where
  metrics : List (String × apiCallMetric)
deriving DecidableEq

/-- `buildKey`: the four labels joined with the `|` delimiter. -/
def buildKey (resource subresource verb scope : String) : String :=
  resource ++ "|" ++ subresource ++ "|" ++ verb ++ "|" ++ scope

/-- Lookup in the keyed mapping (Go `m.metrics[key]`). -/
def findCall : List (String × apiCallMetric) → String → Option apiCallMetric
  | [], _ => none
  | e :: rest, key => if e.1 = key then some e.2 else findCall rest key

/-- Write-back through the record pointer returned by `getAPICall`:
replace the entry with the given key. -/
def setCall : List (String × apiCallMetric) → String → apiCallMetric → List (String × apiCallMetric)
  | [], _, _ => []
  | e :: rest, key, call => if e.1 = key then (key, call) :: rest else e :: setCall rest key call

/-- `getAPICall`: fetch the record for the key, lazily creating a
zero-initialised record carrying the four labels when absent.  Returns the
record together with the (possibly extended) mapping. -/
def apiCallMetrics.getAPICall (m : apiCallMetrics) (resource subresource verb scope : String) :
    apiCallMetric × apiCallMetrics :=
  let key := buildKey resource subresource verb scope
  match findCall m.metrics key with
  | some call => (call, m)
  | none =>
    let call : apiCallMetric :=
      { Resource := resource, Subresource := subresource, Verb := verb, Scope := scope,
        Latency := { Perc50 := 0, Perc90 := 0, Perc99 := 0 }, Count := 0, SlowCount := 0 }
    (call, { metrics := m.metrics ++ [(key, call)] })

/-- `SetLatency`: `getAPICall` then `call.Latency.SetQuantile(quantile, latency)`. -/
def apiCallMetrics.SetLatency (m : apiCallMetrics) (resource subresource verb scope : String)
    (quantile : ℚ) (latency : Int) : apiCallMetrics :=
  let p := m.getAPICall resource subresource verb scope
  { metrics := setCall p.2.metrics (buildKey resource subresource verb scope)
      { p.1 with Latency := p.1.Latency.SetQuantile quantile latency } }

/-- `SetCount`: a zero count is dropped before the record is even fetched. -/
def apiCallMetrics.SetCount (m : apiCallMetrics) (resource subresource verb scope : String)
    (count : Int) : apiCallMetrics :=
  if count = 0 then m
  else
    let p := m.getAPICall resource subresource verb scope
    { metrics := setCall p.2.metrics (buildKey resource subresource verb scope)
        { p.1 with Count := count } }

/-- `SetSlowCount`: a zero slow count is dropped before the record is fetched. -/
def apiCallMetrics.SetSlowCount (m : apiCallMetrics) (resource subresource verb scope : String)
    (count : Int) : apiCallMetrics :=
  if count = 0 then m
  else
    let p := m.getAPICall resource subresource verb scope
    { metrics := setCall p.2.metrics (buildKey resource subresource verb scope)
        { p.1 with SlowCount := count } }

/-- A Prometheus sample as consumed by `newFromSamples`: the four label
strings, the result of parsing the `quantile` tag (`none` when it does not
parse as a number), and the scalar value. -/
structure Sample where
  resource : String
  subresource : String
  verb : String
  scope : String
  quantile : Option ℚ
  value : ℚ
deriving DecidableEq

/-- Go's `math.Round`: round half away from zero.  Computed on the
numerator and denominator so that it evaluates by kernel reduction:
for `v ≥ 0`, `round(v) = ⌊(2*num + den) / (2*den)⌋` in `Nat` division. -/
def goRound (v : ℚ) : Int :=
  let magnitude : Nat := (2 * v.num.natAbs + v.den) / (2 * v.den)
  if 0 ≤ v.num then (magnitude : Int) else -(magnitude : Int)

/-- `time.Duration(float64(sample.Value) * float64(time.Second))`: the
float-to-int64 conversion truncates toward zero. -/
def durationOfSeconds (v : ℚ) : Int :=
  let magnitude : Nat := v.num.natAbs * 1000000000 / v.den
  if 0 ≤ v.num then (magnitude : Int) else -(magnitude : Int)

/-- The latency-sample loop of `newFromSamples`: parse each sample's
quantile tag, failing fast on the first unparseable tag, otherwise apply
`SetLatency`. -/
def applyLatencySamples (m : apiCallMetrics) : List Sample → Except String apiCallMetrics
  | [] => .ok m
  | s :: rest =>
    match s.quantile with
    | none => .error "parsing quantile tag failed"
    | some q =>
      applyLatencySamples
        (m.SetLatency s.resource s.subresource s.verb s.scope q (durationOfSeconds s.value)) rest

/-- The count-sample loop of `newFromSamples`. -/
def applyCountSamples (m : apiCallMetrics) (samples : List Sample) : apiCallMetrics :=
  samples.foldl
    (fun acc s => acc.SetCount s.resource s.subresource s.verb s.scope (goRound s.value)) m

/-- The slow-count-sample loop of `newFromSamples`. -/
def applySlowCountSamples (m : apiCallMetrics) (samples : List Sample) : apiCallMetrics :=
  samples.foldl
    (fun acc s => acc.SetSlowCount s.resource s.subresource s.verb s.scope (goRound s.value)) m

/-- `newFromSamples`: start from the empty mapping, fold the latency
samples (failing fast on a malformed quantile tag), then the count
samples, then the slow-count samples. -/
def newFromSamples (latencySamples countSamples countSlowSamples : List Sample) :
    Except String apiCallMetrics :=
  match applyLatencySamples { metrics := [] } latencySamples with
  | .error e => .error e
  | .ok m => .ok (applySlowCountSamples (applyCountSamples m countSamples) countSlowSamples)

/-- The comparator of `sorted`: `sort.Slice` with less `Perc99_i > Perc99_j`
orders records by non-increasing `Perc99`. -/
def perc99Ge (a b : apiCallMetric) : Bool := b.Latency.Perc99 ≤ a.Latency.Perc99

/-- `sorted`: all records of the mapping, sorted by descending `Perc99`. -/
def apiCallMetrics.sorted (m : apiCallMetrics) : List apiCallMetric :=
  (m.metrics.map Prod.snd).mergeSort perc99Ge

/-- One rendered `DataItem`: percentiles in milliseconds plus label strings. -/
structure DataItem where
  Perc50 : ℚ
  Perc90 : ℚ
  Perc99 : ℚ
  Verb : String
  Resource : String
  Subresource : String
  Scope : String
  Count : String
  SlowCount : String
deriving DecidableEq

/-- The rendered `PerfData` report with its format-version tag. -/
structure PerfData where
  Version : String
  DataItems : List DataItem
deriving DecidableEq

/-- The loop body of `ToPerfData`: one record rendered as a `DataItem`,
converting nanoseconds to milliseconds by dividing by 1e6. -/
def renderItem (apicall : apiCallMetric) : DataItem :=
  { Perc50 := mkRat apicall.Latency.Perc50 1000000,
    Perc90 := mkRat apicall.Latency.Perc90 1000000,
    Perc99 := mkRat apicall.Latency.Perc99 1000000,
    Verb := apicall.Verb, Resource := apicall.Resource,
    Subresource := apicall.Subresource, Scope := apicall.Scope,
    Count := toString apicall.Count, SlowCount := toString apicall.SlowCount }

/-- `ToPerfData`: render the sorted records. -/
def apiCallMetrics.ToPerfData (m : apiCallMetrics) : PerfData :=
  { Version := "v1", DataItems := m.sorted.map renderItem }

/-- The window computation of `gatherAPICalls` in windowed-objective mode:
elapsed duration minus the 5-minute lookback, floored at one minute. -/
def latencyMeasurementDuration (measurementDuration : Int) : Int :=
  let d := measurementDuration - latencyWindowSize
  if d < timeMinute then timeMinute else d

/-- The slow-count-query guard of `gatherAPICalls`: three slow-count
queries are issued whenever `allowedSlowCalls` is nonzero, none otherwise. -/
def slowQueryCount (allowedSlowCalls : Int) : Nat :=
  if allowedSlowCalls ≠ 0 then 3 else 0

/-- All samples of a list carry the same four label strings (they share
one aggregation key). -/
abbrev sameKey (r s v sc : String) (l : List Sample) : Prop :=
  ∀ x ∈ l, x.resource = r ∧ x.subresource = s ∧ x.verb = v ∧ x.scope = sc

/-- One of the three sample-set passes of `newFromSamples`. -/
inductive Phase
  | lat
  | cnt
  | slow
deriving DecidableEq

/-- Apply one sample-set pass of `newFromSamples` to a mapping. -/
def applyPhase (lat cnt slow : List Sample) (m : apiCallMetrics) :
    Phase → Except String apiCallMetrics
  | .lat => applyLatencySamples m lat
  | .cnt => .ok (applyCountSamples m cnt)
  | .slow => .ok (applySlowCountSamples m slow)

/-- Run the three sample-set passes in a given arrival order. -/
def runPhases (lat cnt slow : List Sample) (m : apiCallMetrics) :
    List Phase → Except String apiCallMetrics
  | [] => .ok m
  | p :: rest =>
    match applyPhase lat cnt slow m p with
    | .error e => .error e
    | .ok m2 => runPhases lat cnt slow m2 rest

/-- The mapping holds at most the one record for the given key. -/
def singleKeyShape (k : String) (m : apiCallMetrics) : Prop :=
  m.metrics = [] ∨ ∃ c, m.metrics = [(k, c)]

/-- A concrete mapping with two records sharing the same `Perc99` (10ms),
used to examine tie behaviour of the report ordering. -/
def tieMapping : apiCallMetrics :=
  ⟨[(buildKey "pods" "" "GET" "resource",
     { Resource := "pods", Subresource := "", Verb := "GET", Scope := "resource",
       Latency := { Perc50 := 0, Perc90 := 0, Perc99 := 10000000 },
       Count := 1, SlowCount := 0 }),
    (buildKey "nodes" "" "GET" "resource",
     { Resource := "nodes", Subresource := "", Verb := "GET", Scope := "resource",
       Latency := { Perc50 := 0, Perc90 := 0, Perc99 := 10000000 },
       Count := 2, SlowCount := 0 })]⟩

/-- A concrete mapping whose records carry `Perc99` values 10ms, 500ms and
50ms in insertion order, the spec's worked report-ordering example. -/
def distinctMapping : apiCallMetrics :=
  ⟨[(buildKey "pods" "" "GET" "resource",
     { Resource := "pods", Subresource := "", Verb := "GET", Scope := "resource",
       Latency := { Perc50 := 0, Perc90 := 0, Perc99 := 10000000 },
       Count := 1, SlowCount := 0 }),
    (buildKey "nodes" "" "GET" "resource",
     { Resource := "nodes", Subresource := "", Verb := "GET", Scope := "resource",
       Latency := { Perc50 := 0, Perc90 := 0, Perc99 := 500000000 },
       Count := 2, SlowCount := 0 }),
    (buildKey "secrets" "" "GET" "resource",
     { Resource := "secrets", Subresource := "", Verb := "GET", Scope := "resource",
       Latency := { Perc50 := 0, Perc90 := 0, Perc99 := 50000000 },
       Count := 3, SlowCount := 0 })]⟩

/-! ## Helper lemmas -/

/-- A zero count update is dropped before the mapping is touched. -/
theorem setCount_zero (m : apiCallMetrics) (r s v sc : String) :
    m.SetCount r s v sc 0 = m := rfl

/-- A zero slow-count update is dropped before the mapping is touched. -/
theorem setSlowCount_zero (m : apiCallMetrics) (r s v sc : String) :
    m.SetSlowCount r s v sc 0 = m := rfl

/-- A count-sample pass in which every value rounds to zero leaves the
mapping unchanged. -/
theorem applyCountSamples_all_zero (m : apiCallMetrics) (cs : List Sample)
    (h : ∀ x ∈ cs, goRound x.value = 0) : applyCountSamples m cs = m := by
  induction cs generalizing m with
  | nil => rfl
  | cons x rest ih =>
    have hx : goRound x.value = 0 := h x (by simp)
    have hrest : ∀ y ∈ rest, goRound y.value = 0 := fun y hy => h y (by simp [hy])
    simp only [applyCountSamples, List.foldl_cons] at *
    rw [hx, setCount_zero]
    exact ih m hrest

/-- `findCall` over an append when the key misses the first part. -/
theorem findCall_append_of_none (l1 l2 : List (String × apiCallMetric)) (k : String)
    (h : findCall l1 k = none) : findCall (l1 ++ l2) k = findCall l2 k := by
  induction l1 with
  | nil => rfl
  | cons e rest ih =>
    by_cases he : e.1 = k
    · simp [findCall, he] at h
    · simp only [findCall, List.cons_append, if_neg he] at h ⊢
      exact ih h

/-- `findCall` after `setCall` at the same key. -/
theorem findCall_setCall_self (l : List (String × apiCallMetric)) (k : String)
    (c : apiCallMetric) :
    findCall (setCall l k c) k = (findCall l k).map (fun _ => c) := by
  induction l with
  | nil => rfl
  | cons e rest ih =>
    by_cases he : e.1 = k
    · simp [findCall, setCall, he]
    · simp only [findCall, setCall, if_neg he, ih]

/-! ## Claims -/

/-- Claim C1: the selected latency objective is a pure function of
(verb, scope) with first-match precedence: non-LIST verbs get 1 second,
cluster-scoped LIST gets 30 seconds, non-cluster LIST gets 5 seconds
(durations in nanoseconds). -/
theorem C1_slo_threshold_selection (ap : apiCallMetric) :
    (ap.Verb ≠ "LIST" → ap.getSLOThreshold = 1000000000) ∧
    (ap.Verb = "LIST" → ap.Scope = "cluster" → ap.getSLOThreshold = 30000000000) ∧
    (ap.Verb = "LIST" → ap.Scope ≠ "cluster" → ap.getSLOThreshold = 5000000000) ∧
    (∀ other : apiCallMetric, ap.Verb = other.Verb → ap.Scope = other.Scope →
      ap.getSLOThreshold = other.getSLOThreshold) := by
  refine ⟨fun h => ?_, fun h1 h2 => ?_, fun h1 h2 => ?_, fun other h1 h2 => ?_⟩
  · simp [apiCallMetric.getSLOThreshold, resourceThreshold, timeSecond, h]
  · simp [apiCallMetric.getSLOThreshold, clusterThreshold, timeSecond, h1, h2]
  · simp [apiCallMetric.getSLOThreshold, namespaceThreshold, timeSecond, h1, h2]
  · simp only [apiCallMetric.getSLOThreshold, h1, h2]

/-- Witness for C1 at a concrete GET record. -/
theorem C1_slo_threshold_selection_witness :
    (apiCallMetric.getSLOThreshold
      { Resource := "pods", Subresource := "", Verb := "GET", Scope := "resource",
        Latency := { Perc50 := 0, Perc90 := 0, Perc99 := 0 }, Count := 0, SlowCount := 0 })
      = 1000000000 :=
  (C1_slo_threshold_selection _).1 (by decide)

/-- Claim C2: validation signals a violation iff the record's Perc99
exceeds its selected objective and the record is not exempted, where
exemption holds exactly when the tolerance is positive and the slow count
is at most the tolerance. -/
theorem C2_validate_violation_iff (ap : apiCallMetric) (tolerance : Int) :
    (ap.Validate tolerance).isSome = true ↔
      (ap.getSLOThreshold < ap.Latency.Perc99 ∧
        ¬(0 < tolerance ∧ ap.SlowCount ≤ tolerance)) := by
  by_cases h : ap.getSLOThreshold < ap.Latency.Perc99
  · by_cases hex : 0 < tolerance ∧ ap.SlowCount ≤ tolerance <;>
      simp [apiCallMetric.Validate, LatencyMetric.VerifyThreshold, h, hex]
  · simp [apiCallMetric.Validate, LatencyMetric.VerifyThreshold, h]

/-- Witness for C2: the spec's worked examples, tolerance 10 with slow
counts 5 (exempted) and 15 (violating), on a 40s cluster-scoped LIST. -/
theorem C2_validate_violation_iff_witness :
    (apiCallMetric.Validate
      { Resource := "pods", Subresource := "", Verb := "LIST", Scope := "cluster",
        Latency := { Perc50 := 0, Perc90 := 0, Perc99 := 40000000000 },
        Count := 0, SlowCount := 15 } 10).isSome = true ∧
    ¬ (apiCallMetric.Validate
      { Resource := "pods", Subresource := "", Verb := "LIST", Scope := "cluster",
        Latency := { Perc50 := 0, Perc90 := 0, Perc99 := 40000000000 },
        Count := 0, SlowCount := 5 } 10).isSome = true :=
  ⟨(C2_validate_violation_iff _ 10).mpr (by decide),
   fun hviol => by
    have := (C2_validate_violation_iff _ 10).mp hviol
    exact absurd this (by decide)⟩

/-- Claim C3: a zero-valued count (resp. slow-count) update never
overwrites a previously recorded nonzero count (resp. slow count): the
record found under the key after the zero update is the prior one. -/
theorem C3_zero_update_keeps_nonzero (m : apiCallMetrics) (r s v sc : String)
    (c : apiCallMetric) (hfound : findCall m.metrics (buildKey r s v sc) = some c) :
    (c.Count ≠ 0 →
      findCall ((m.SetCount r s v sc 0).metrics) (buildKey r s v sc) = some c) ∧
    (c.SlowCount ≠ 0 →
      findCall ((m.SetSlowCount r s v sc 0).metrics) (buildKey r s v sc) = some c) := by
  exact ⟨fun _ => by rw [setCount_zero]; exact hfound,
         fun _ => by rw [setSlowCount_zero]; exact hfound⟩

/-- Witness for C3 on a one-record mapping with nonzero count and slow count. -/
theorem C3_zero_update_keeps_nonzero_witness :
    (findCall ((apiCallMetrics.SetCount
        ⟨[("pods||GET|resource",
          { Resource := "pods", Subresource := "", Verb := "GET", Scope := "resource",
            Latency := { Perc50 := 0, Perc90 := 0, Perc99 := 0 }, Count := 7, SlowCount := 3 })]⟩
        "pods" "" "GET" "resource" 0).metrics) (buildKey "pods" "" "GET" "resource"))
      = some
        ({ Resource := "pods", Subresource := "", Verb := "GET", Scope := "resource",
           Latency := { Perc50 := 0, Perc90 := 0, Perc99 := 0 }, Count := 7,
           SlowCount := 3 } : apiCallMetric) :=
  (C3_zero_update_keeps_nonzero _ "pods" "" "GET" "resource" _ (by decide)).1 (by decide)

/-- Claim C6: in windowed-objective mode the latency-query window is the
elapsed duration minus the 5-minute lookback, floored at 1 minute
(nanoseconds; the floor applies even to negative differences). -/
theorem C6_latency_window (d : Int) :
    (60000000000 ≤ d - 300000000000 →
      latencyMeasurementDuration d = d - 300000000000) ∧
    (d - 300000000000 < 60000000000 →
      latencyMeasurementDuration d = 60000000000) := by
  simp only [latencyMeasurementDuration, latencyWindowSize, timeMinute, timeSecond]
  constructor <;> intro h <;> split <;> omega

/-- Witness for C6: a 10-minute run gets a 5-minute window; a zero-length
run still gets the 1-minute floor. -/
theorem C6_latency_window_witness :
    latencyMeasurementDuration 600000000000 = 300000000000 ∧
    latencyMeasurementDuration 0 = 60000000000 :=
  ⟨by have := (C6_latency_window 600000000000).1 (by decide); omega,
   (C6_latency_window 0).2 (by decide)⟩

/-- Claim C10: the slow-call tolerance is asymmetric for negative values:
the three slow-count queries are issued for any nonzero tolerance
(negative included), but the exemption needs a strictly positive
tolerance, so under a negative tolerance a record above its objective
always fails, whatever its slow count. -/
theorem C10_negative_tolerance_asymmetry (a : Int) (ap : apiCallMetric) (hneg : a < 0) :
    slowQueryCount a = 3 ∧
    (ap.getSLOThreshold < ap.Latency.Perc99 → (ap.Validate a).isSome = true) := by
  constructor
  · rw [slowQueryCount, if_pos (by omega)]
  · intro h
    have hnotex : ¬(0 < a ∧ ap.SlowCount ≤ a) := fun hx => absurd hx.1 (by omega)
    simp [apiCallMetric.Validate, LatencyMetric.VerifyThreshold, h, hnotex]

/-- Witness for C10 at tolerance -1 on a 2s GET record with a tiny slow count. -/
theorem C10_negative_tolerance_asymmetry_witness :
    slowQueryCount (-1) = 3 ∧
    (apiCallMetric.Validate
      { Resource := "pods", Subresource := "", Verb := "GET", Scope := "resource",
        Latency := { Perc50 := 0, Perc90 := 0, Perc99 := 2000000000 },
        Count := 10, SlowCount := 0 } (-1)).isSome = true :=
  ⟨(C10_negative_tolerance_asymmetry (-1)
      { Resource := "pods", Subresource := "", Verb := "GET", Scope := "resource",
        Latency := { Perc50 := 0, Perc90 := 0, Perc99 := 2000000000 },
        Count := 10, SlowCount := 0 } (by decide)).1,
   (C10_negative_tolerance_asymmetry (-1) _ (by decide)).2 (by decide)⟩

/-- A latency-sample list containing an unparseable quantile tag makes the
latency loop fail with the parse error, wherever the bad sample sits. -/
theorem applyLatencySamples_error_of_bad_tag (l : List Sample) (m : apiCallMetrics)
    (h : ∃ x ∈ l, x.quantile = none) :
    applyLatencySamples m l = .error "parsing quantile tag failed" := by
  induction l generalizing m with
  | nil => simp at h
  | cons x rest ih =>
    obtain ⟨y, hy, hyq⟩ := h
    rcases List.mem_cons.mp hy with hy | hy
    · subst hy
      simp [applyLatencySamples, hyq]
    · cases hx : x.quantile with
      | none => simp [applyLatencySamples, hx]
      | some q =>
        simp only [applyLatencySamples, hx]
        exact ih _ ⟨y, hy, hyq⟩

/-- A latency-sample list whose quantile tags all parse never makes the
latency loop fail. -/
theorem applyLatencySamples_ok_of_parsed (l : List Sample) (m : apiCallMetrics)
    (h : ∀ x ∈ l, x.quantile ≠ none) :
    ∃ m2, applyLatencySamples m l = .ok m2 := by
  induction l generalizing m with
  | nil => exact ⟨m, rfl⟩
  | cons x rest ih =>
    cases hx : x.quantile with
    | none => exact absurd hx (h x (by simp))
    | some q =>
      simp only [applyLatencySamples, hx]
      exact ih _ (fun y hy => h y (by simp [hy]))

/-- Claim C7: a latency sample whose quantile tag does not parse makes the
whole aggregation fail with an error (no partial aggregate is returned),
while sample sets whose latency tags all parse never trigger that error. -/
theorem C7_malformed_quantile_aborts (lat cnt slow : List Sample) :
    ((∃ x ∈ lat, x.quantile = none) →
      newFromSamples lat cnt slow = .error "parsing quantile tag failed") ∧
    ((∀ x ∈ lat, x.quantile ≠ none) →
      ∃ m, newFromSamples lat cnt slow = .ok m) := by
  constructor
  · intro h
    unfold newFromSamples
    rw [applyLatencySamples_error_of_bad_tag lat _ h]
  · intro h
    obtain ⟨m2, hm2⟩ := applyLatencySamples_ok_of_parsed lat ⟨[]⟩ h
    unfold newFromSamples
    rw [hm2]
    exact ⟨_, rfl⟩

/-- Witness for C7: one unparseable latency tag aborts the pass; the same
pass with a parseable tag succeeds. -/
theorem C7_malformed_quantile_aborts_witness :
    newFromSamples [⟨"pods", "", "GET", "resource", none, 1⟩] [] []
      = .error "parsing quantile tag failed" ∧
    ∃ m, newFromSamples [⟨"pods", "", "GET", "resource", some (mkRat 99 100), 1⟩] [] []
      = .ok m :=
  ⟨(C7_malformed_quantile_aborts _ [] []).1
      ⟨⟨"pods", "", "GET", "resource", none, 1⟩, by simp, rfl⟩,
   (C7_malformed_quantile_aborts [⟨"pods", "", "GET", "resource", some (mkRat 99 100), 1⟩]
      [] []).2 (by simp)⟩

/-- Claim C8: the `|`-joined mapping key is not injective on label tuples:
the distinct tuples (resource `a|b`, subresource `c`) and (resource `a`,
subresource `b|c`) build the same key, and their count samples are merged
into a single record (the later sample overwrites the count of the record
created under the first tuple's labels). -/
theorem C8_key_collision :
    buildKey "a|b" "c" "LIST" "cluster" = buildKey "a" "b|c" "LIST" "cluster" ∧
    newFromSamples []
      [⟨"a|b", "c", "LIST", "cluster", none, 3⟩, ⟨"a", "b|c", "LIST", "cluster", none, 5⟩]
      []
      = .ok ⟨[("a|b|c|LIST|cluster",
          { Resource := "a|b", Subresource := "c", Verb := "LIST", Scope := "cluster",
            Latency := { Perc50 := 0, Perc90 := 0, Perc99 := 0 },
            Count := 5, SlowCount := 0 })]⟩ :=
  ⟨rfl, rfl⟩

/-- Claim C9: for a key absent from the mapping, a zero-valued count or
slow-count update leaves the mapping entirely unchanged (no record is
created), whereas a latency update always creates the record; hence a pass
of count samples whose values all round to zero leaves the report without
those keys. -/
theorem C9_zero_update_creates_nothing (m : apiCallMetrics) (r s v sc : String)
    (q : ℚ) (d : Int) (habs : findCall m.metrics (buildKey r s v sc) = none) :
    m.SetCount r s v sc 0 = m ∧
    m.SetSlowCount r s v sc 0 = m ∧
    (findCall ((m.SetLatency r s v sc q d).metrics) (buildKey r s v sc)).isSome = true ∧
    (∀ cs : List Sample, (∀ x ∈ cs, goRound x.value = 0) → applyCountSamples m cs = m) := by
  refine ⟨setCount_zero m r s v sc, setSlowCount_zero m r s v sc, ?_,
    fun cs h => applyCountSamples_all_zero m cs h⟩
  simp only [apiCallMetrics.SetLatency, apiCallMetrics.getAPICall, habs]
  rw [findCall_setCall_self, findCall_append_of_none _ _ _ habs]
  simp [findCall]

/-- Witness for C9 on the empty mapping. -/
theorem C9_zero_update_creates_nothing_witness :
    apiCallMetrics.SetCount ⟨[]⟩ "pods" "" "GET" "resource" 0 = ⟨[]⟩ ∧
    (findCall ((apiCallMetrics.SetLatency ⟨[]⟩ "pods" "" "GET" "resource"
        (mkRat 99 100) 500000000).metrics) (buildKey "pods" "" "GET" "resource")).isSome
      = true :=
  ⟨(C9_zero_update_creates_nothing ⟨[]⟩ "pods" "" "GET" "resource" (mkRat 99 100)
      500000000 rfl).1,
   (C9_zero_update_creates_nothing ⟨[]⟩ "pods" "" "GET" "resource" (mkRat 99 100)
      500000000 rfl).2.2.1⟩

/-- Counterexample to claim C5 as stated: with two records tied at
`Perc99 = 10ms` the rendered report lists them as `[10, 10]` (ms), which
is not strictly descending, so "strictly descending 99th-percentile
latency" fails on ties (the comparator admits equal keys). -/
theorem C5_counterexample :
    (tieMapping.ToPerfData).DataItems.map DataItem.Perc99 = [10, 10] ∧
    ¬ List.Chain' (fun a b : ℚ => b < a)
        ((tieMapping.ToPerfData).DataItems.map DataItem.Perc99) := by
  have hmap : (tieMapping.ToPerfData).DataItems.map DataItem.Perc99 = [10, 10] := by
    simp [tieMapping, apiCallMetrics.ToPerfData, apiCallMetrics.sorted, List.mergeSort,
      perc99Ge, renderItem, buildKey]
    decide
  refine ⟨hmap, ?_⟩
  rw [hmap]
  simp [List.chain'_cons, List.chain'_singleton]

/-- Claim C5 (amended): the rendered report lists all records ordered by
non-increasing 99th-percentile latency as the sole sort key (ties are
adjacent, in no specified order); in particular records with `Perc99`
values [10ms, 500ms, 50ms] render in order [500ms, 50ms, 10ms]. -/
theorem C5_report_descending_perc99 :
    (∀ m : apiCallMetrics,
      List.Pairwise (fun a b : DataItem => b.Perc99 ≤ a.Perc99) (m.ToPerfData).DataItems ∧
      List.Perm (m.ToPerfData).DataItems ((m.metrics.map Prod.snd).map renderItem)) ∧
    (distinctMapping.ToPerfData).DataItems.map DataItem.Perc99 = [500, 50, 10] := by
  constructor
  · intro m
    constructor
    · have hs := @List.sorted_mergeSort apiCallMetric perc99Ge
        (fun a b c hab hbc => by
          simp only [perc99Ge, decide_eq_true_eq] at *; exact le_trans hbc hab)
        (fun a b => by
          simp only [perc99Ge, Bool.or_eq_true, decide_eq_true_eq]; exact Int.le_total _ _)
        (m.metrics.map Prod.snd)
      rw [apiCallMetrics.ToPerfData]
      simp only [List.pairwise_map]
      refine hs.imp ?_
      intro a b hab
      simp only [perc99Ge, decide_eq_true_eq] at hab
      simp only [renderItem, Rat.mkRat_eq_div]
      rw [div_le_div_iff_of_pos_right]
      · exact_mod_cast hab
      · norm_num
    · rw [apiCallMetrics.ToPerfData]
      exact List.Perm.map _ (List.mergeSort_perm _ _)
  · simp [distinctMapping, apiCallMetrics.ToPerfData, apiCallMetrics.sorted, List.mergeSort,
      perc99Ge, renderItem, buildKey]
    decide

/-- Rewriting the same key twice keeps only the last record. -/
theorem setCall_setCall_self (l : List (String × apiCallMetric)) (k : String)
    (a b : apiCallMetric) : setCall (setCall l k a) k b = setCall l k b := by
  induction l with
  | nil => rfl
  | cons e rest ih =>
    by_cases he : e.1 = k
    · simp [setCall, he]
    · simp [setCall, he, ih]

/-- Rewriting the key of a freshly appended entry rewrites that entry. -/
theorem setCall_append_single_none (l : List (String × apiCallMetric)) (k : String)
    (c b : apiCallMetric) (h : findCall l k = none) :
    setCall (l ++ [(k, c)]) k b = l ++ [(k, b)] := by
  induction l with
  | nil => simp [setCall]
  | cons e rest ih =>
    by_cases he : e.1 = k
    · simp [findCall, he] at h
    · simp only [findCall, if_neg he] at h
      simp [setCall, he, ih h]

/-- Looking up a freshly appended entry finds it. -/
theorem findCall_append_single (l : List (String × apiCallMetric)) (k : String)
    (c : apiCallMetric) (h : findCall l k = none) :
    findCall (l ++ [(k, c)]) k = some c := by
  rw [findCall_append_of_none _ _ _ h]
  simp [findCall]

/-- `SetLatency` on a present key rewrites that record in place. -/
theorem setLatency_of_found {m : apiCallMetrics} {r s v sc : String} {c : apiCallMetric}
    (h : findCall m.metrics (buildKey r s v sc) = some c) (q : ℚ) (d : Int) :
    m.SetLatency r s v sc q d
      = ⟨setCall m.metrics (buildKey r s v sc)
          { c with Latency := c.Latency.SetQuantile q d }⟩ := by
  simp [apiCallMetrics.SetLatency, apiCallMetrics.getAPICall, h]

/-- `SetLatency` on an absent key appends a fresh record with the quantile set. -/
theorem setLatency_of_none {m : apiCallMetrics} {r s v sc : String}
    (h : findCall m.metrics (buildKey r s v sc) = none) (q : ℚ) (d : Int) :
    m.SetLatency r s v sc q d
      = ⟨m.metrics ++ [(buildKey r s v sc,
          { Resource := r, Subresource := s, Verb := v, Scope := sc,
            Latency := LatencyMetric.SetQuantile { Perc50 := 0, Perc90 := 0, Perc99 := 0 } q d,
            Count := 0, SlowCount := 0 })]⟩ := by
  simp only [apiCallMetrics.SetLatency, apiCallMetrics.getAPICall, h]
  rw [setCall_append_single_none _ _ _ _ h]

/-- `SetCount` with a nonzero count on a present key rewrites that record. -/
theorem setCount_of_found {m : apiCallMetrics} {r s v sc : String} {c : apiCallMetric}
    (h : findCall m.metrics (buildKey r s v sc) = some c) {n : Int} (hn : n ≠ 0) :
    m.SetCount r s v sc n
      = ⟨setCall m.metrics (buildKey r s v sc) { c with Count := n }⟩ := by
  simp [apiCallMetrics.SetCount, apiCallMetrics.getAPICall, h, hn]

/-- `SetCount` with a nonzero count on an absent key appends a fresh record. -/
theorem setCount_of_none {m : apiCallMetrics} {r s v sc : String}
    (h : findCall m.metrics (buildKey r s v sc) = none) {n : Int} (hn : n ≠ 0) :
    m.SetCount r s v sc n
      = ⟨m.metrics ++ [(buildKey r s v sc,
          { Resource := r, Subresource := s, Verb := v, Scope := sc,
            Latency := { Perc50 := 0, Perc90 := 0, Perc99 := 0 },
            Count := n, SlowCount := 0 })]⟩ := by
  simp only [apiCallMetrics.SetCount, apiCallMetrics.getAPICall, h, if_neg hn]
  rw [setCall_append_single_none _ _ _ _ h]

/-- `SetSlowCount` with a nonzero count on a present key rewrites that record. -/
theorem setSlowCount_of_found {m : apiCallMetrics} {r s v sc : String} {c : apiCallMetric}
    (h : findCall m.metrics (buildKey r s v sc) = some c) {n : Int} (hn : n ≠ 0) :
    m.SetSlowCount r s v sc n
      = ⟨setCall m.metrics (buildKey r s v sc) { c with SlowCount := n }⟩ := by
  simp [apiCallMetrics.SetSlowCount, apiCallMetrics.getAPICall, h, hn]

/-- `SetSlowCount` with a nonzero count on an absent key appends a fresh record. -/
theorem setSlowCount_of_none {m : apiCallMetrics} {r s v sc : String}
    (h : findCall m.metrics (buildKey r s v sc) = none) {n : Int} (hn : n ≠ 0) :
    m.SetSlowCount r s v sc n
      = ⟨m.metrics ++ [(buildKey r s v sc,
          { Resource := r, Subresource := s, Verb := v, Scope := sc,
            Latency := { Perc50 := 0, Perc90 := 0, Perc99 := 0 },
            Count := 0, SlowCount := n })]⟩ := by
  simp only [apiCallMetrics.SetSlowCount, apiCallMetrics.getAPICall, h, if_neg hn]
  rw [setCall_append_single_none _ _ _ _ h]

/-- A count update and a latency update on the same key commute. -/
theorem setCount_setLatency_comm (m : apiCallMetrics) (r s v sc : String)
    (q : ℚ) (d : Int) (n : Int) :
    (m.SetLatency r s v sc q d).SetCount r s v sc n
      = (m.SetCount r s v sc n).SetLatency r s v sc q d := by
  by_cases hn : n = 0
  · subst hn
    rw [setCount_zero, setCount_zero]
  · cases hfc : findCall m.metrics (buildKey r s v sc) with
    | some c =>
      rw [setLatency_of_found hfc,
          setCount_of_found (m := ⟨setCall m.metrics (buildKey r s v sc) _⟩)
            (by rw [findCall_setCall_self, hfc]; rfl) hn,
          setCount_of_found hfc hn,
          setLatency_of_found (m := ⟨setCall m.metrics (buildKey r s v sc) _⟩)
            (by rw [findCall_setCall_self, hfc]; rfl)]
      rw [setCall_setCall_self, setCall_setCall_self]
    | none =>
      rw [setLatency_of_none hfc,
          setCount_of_found (m := ⟨m.metrics ++ [(buildKey r s v sc, _)]⟩)
            (findCall_append_single _ _ _ hfc) hn,
          setCount_of_none hfc hn,
          setLatency_of_found (m := ⟨m.metrics ++ [(buildKey r s v sc, _)]⟩)
            (findCall_append_single _ _ _ hfc)]
      rw [setCall_append_single_none _ _ _ _ hfc, setCall_append_single_none _ _ _ _ hfc]

/-- A slow-count update and a latency update on the same key commute. -/
theorem setSlowCount_setLatency_comm (m : apiCallMetrics) (r s v sc : String)
    (q : ℚ) (d : Int) (n : Int) :
    (m.SetLatency r s v sc q d).SetSlowCount r s v sc n
      = (m.SetSlowCount r s v sc n).SetLatency r s v sc q d := by
  by_cases hn : n = 0
  · subst hn
    rw [setSlowCount_zero, setSlowCount_zero]
  · cases hfc : findCall m.metrics (buildKey r s v sc) with
    | some c =>
      rw [setLatency_of_found hfc,
          setSlowCount_of_found (m := ⟨setCall m.metrics (buildKey r s v sc) _⟩)
            (by rw [findCall_setCall_self, hfc]; rfl) hn,
          setSlowCount_of_found hfc hn,
          setLatency_of_found (m := ⟨setCall m.metrics (buildKey r s v sc) _⟩)
            (by rw [findCall_setCall_self, hfc]; rfl)]
      rw [setCall_setCall_self, setCall_setCall_self]
    | none =>
      rw [setLatency_of_none hfc,
          setSlowCount_of_found (m := ⟨m.metrics ++ [(buildKey r s v sc, _)]⟩)
            (findCall_append_single _ _ _ hfc) hn,
          setSlowCount_of_none hfc hn,
          setLatency_of_found (m := ⟨m.metrics ++ [(buildKey r s v sc, _)]⟩)
            (findCall_append_single _ _ _ hfc)]
      rw [setCall_append_single_none _ _ _ _ hfc, setCall_append_single_none _ _ _ _ hfc]

/-- A slow-count update and a count update on the same key commute. -/
theorem setSlowCount_setCount_comm (m : apiCallMetrics) (r s v sc : String)
    (n k : Int) :
    (m.SetCount r s v sc n).SetSlowCount r s v sc k
      = (m.SetSlowCount r s v sc k).SetCount r s v sc n := by
  by_cases hn : n = 0
  · subst hn
    rw [setCount_zero, setCount_zero]
  · by_cases hk : k = 0
    · subst hk
      rw [setSlowCount_zero, setSlowCount_zero]
    · cases hfc : findCall m.metrics (buildKey r s v sc) with
      | some c =>
        rw [setCount_of_found hfc hn,
            setSlowCount_of_found (m := ⟨setCall m.metrics (buildKey r s v sc) _⟩)
              (by rw [findCall_setCall_self, hfc]; rfl) hk,
            setSlowCount_of_found hfc hk,
            setCount_of_found (m := ⟨setCall m.metrics (buildKey r s v sc) _⟩)
              (by rw [findCall_setCall_self, hfc]; rfl) hn]
        rw [setCall_setCall_self, setCall_setCall_self]
      | none =>
        rw [setCount_of_none hfc hn,
            setSlowCount_of_found (m := ⟨m.metrics ++ [(buildKey r s v sc, _)]⟩)
              (findCall_append_single _ _ _ hfc) hk,
            setSlowCount_of_none hfc hk,
            setCount_of_found (m := ⟨m.metrics ++ [(buildKey r s v sc, _)]⟩)
              (findCall_append_single _ _ _ hfc) hn]
        rw [setCall_append_single_none _ _ _ _ hfc, setCall_append_single_none _ _ _ _ hfc]

/-- A latency update commutes with a whole count-sample pass on the same key. -/
theorem applyCountSamples_setLatency_comm (r s v sc : String) (q : ℚ) (d : Int)
    (cnt : List Sample) (hc : sameKey r s v sc cnt) :
    ∀ m : apiCallMetrics,
      applyCountSamples (m.SetLatency r s v sc q d) cnt
        = (applyCountSamples m cnt).SetLatency r s v sc q d := by
  induction cnt with
  | nil => intro m; rfl
  | cons x rest ih =>
    intro m
    obtain ⟨hr, hs', hv, hsc⟩ := hc x (by simp)
    have hrest : sameKey r s v sc rest := fun y hy => hc y (by simp [hy])
    have step : ∀ mm : apiCallMetrics, applyCountSamples mm (x :: rest)
        = applyCountSamples (mm.SetCount x.resource x.subresource x.verb x.scope
            (goRound x.value)) rest := fun _ => rfl
    rw [step, step, hr, hs', hv, hsc, setCount_setLatency_comm]
    exact ih hrest _

/-- A latency update commutes with a whole slow-count pass on the same key. -/
theorem applySlowCountSamples_setLatency_comm (r s v sc : String) (q : ℚ) (d : Int)
    (slow : List Sample) (hs : sameKey r s v sc slow) :
    ∀ m : apiCallMetrics,
      applySlowCountSamples (m.SetLatency r s v sc q d) slow
        = (applySlowCountSamples m slow).SetLatency r s v sc q d := by
  induction slow with
  | nil => intro m; rfl
  | cons x rest ih =>
    intro m
    obtain ⟨hr, hs', hv, hsc⟩ := hs x (by simp)
    have hrest : sameKey r s v sc rest := fun y hy => hs y (by simp [hy])
    have step : ∀ mm : apiCallMetrics, applySlowCountSamples mm (x :: rest)
        = applySlowCountSamples (mm.SetSlowCount x.resource x.subresource x.verb x.scope
            (goRound x.value)) rest := fun _ => rfl
    rw [step, step, hr, hs', hv, hsc, setSlowCount_setLatency_comm]
    exact ih hrest _

/-- A count update commutes with a whole slow-count pass on the same key. -/
theorem applySlowCountSamples_setCount_comm (r s v sc : String) (n : Int)
    (slow : List Sample) (hs : sameKey r s v sc slow) :
    ∀ m : apiCallMetrics,
      applySlowCountSamples (m.SetCount r s v sc n) slow
        = (applySlowCountSamples m slow).SetCount r s v sc n := by
  induction slow with
  | nil => intro m; rfl
  | cons x rest ih =>
    intro m
    obtain ⟨hr, hs', hv, hsc⟩ := hs x (by simp)
    have hrest : sameKey r s v sc rest := fun y hy => hs y (by simp [hy])
    have step : ∀ mm : apiCallMetrics, applySlowCountSamples mm (x :: rest)
        = applySlowCountSamples (mm.SetSlowCount x.resource x.subresource x.verb x.scope
            (goRound x.value)) rest := fun _ => rfl
    rw [step, step, hr, hs', hv, hsc, setSlowCount_setCount_comm]
    exact ih hrest _

/-- The count pass and the slow-count pass commute on a shared key. -/
theorem applyCnt_applySlow_comm (r s v sc : String) (cnt slow : List Sample)
    (hc : sameKey r s v sc cnt) (hs : sameKey r s v sc slow) :
    ∀ m : apiCallMetrics,
      applySlowCountSamples (applyCountSamples m cnt) slow
        = applyCountSamples (applySlowCountSamples m slow) cnt := by
  induction cnt with
  | nil => intro m; rfl
  | cons x rest ih =>
    intro m
    obtain ⟨hr, hs', hv, hsc⟩ := hc x (by simp)
    have hrest : sameKey r s v sc rest := fun y hy => hc y (by simp [hy])
    have step : ∀ mm : apiCallMetrics, applyCountSamples mm (x :: rest)
        = applyCountSamples (mm.SetCount x.resource x.subresource x.verb x.scope
            (goRound x.value)) rest := fun _ => rfl
    rw [step, step, hr, hs', hv, hsc,
      ← applySlowCountSamples_setCount_comm r s v sc _ slow hs]
    exact ih hrest _

/-- The latency pass and the count pass commute on a shared key (the parse
error, when present, is the same on both sides). -/
theorem applyLat_applyCnt_comm (r s v sc : String) (lat cnt : List Sample)
    (hl : sameKey r s v sc lat) (hc : sameKey r s v sc cnt) :
    ∀ m : apiCallMetrics,
      (applyLatencySamples m lat).map (fun m2 => applyCountSamples m2 cnt)
        = applyLatencySamples (applyCountSamples m cnt) lat := by
  induction lat with
  | nil => intro m; rfl
  | cons x rest ih =>
    intro m
    obtain ⟨hr, hs', hv, hsc⟩ := hl x (by simp)
    have hrest : sameKey r s v sc rest := fun y hy => hl y (by simp [hy])
    cases hq : x.quantile with
    | none => simp [applyLatencySamples, hq, Except.map]
    | some q =>
      simp only [applyLatencySamples, hq]
      rw [ih hrest, hr, hs', hv, hsc,
        applyCountSamples_setLatency_comm r s v sc _ _ cnt hc]

/-- The latency pass and the slow-count pass commute on a shared key. -/
theorem applyLat_applySlow_comm (r s v sc : String) (lat slow : List Sample)
    (hl : sameKey r s v sc lat) (hs : sameKey r s v sc slow) :
    ∀ m : apiCallMetrics,
      (applyLatencySamples m lat).map (fun m2 => applySlowCountSamples m2 slow)
        = applyLatencySamples (applySlowCountSamples m slow) lat := by
  induction lat with
  | nil => intro m; rfl
  | cons x rest ih =>
    intro m
    obtain ⟨hr, hs', hv, hsc⟩ := hl x (by simp)
    have hrest : sameKey r s v sc rest := fun y hy => hl y (by simp [hy])
    cases hq : x.quantile with
    | none => simp [applyLatencySamples, hq, Except.map]
    | some q =>
      simp only [applyLatencySamples, hq]
      rw [ih hrest, hr, hs', hv, hsc,
        applySlowCountSamples_setLatency_comm r s v sc _ _ slow hs]

/-- Swapping adjacent latency and count passes does not change the run. -/
theorem runPhases_swap_lat_cnt (r s v sc : String) (lat cnt slow : List Sample)
    (hl : sameKey r s v sc lat) (hc : sameKey r s v sc cnt)
    (l : List Phase) (m : apiCallMetrics) :
    runPhases lat cnt slow m (Phase.lat :: Phase.cnt :: l)
      = runPhases lat cnt slow m (Phase.cnt :: Phase.lat :: l) := by
  simp only [runPhases, applyPhase]
  rw [← applyLat_applyCnt_comm r s v sc lat cnt hl hc m]
  cases happ : applyLatencySamples m lat <;> simp [Except.map, happ, runPhases]

/-- Swapping adjacent latency and slow-count passes does not change the run. -/
theorem runPhases_swap_lat_slow (r s v sc : String) (lat cnt slow : List Sample)
    (hl : sameKey r s v sc lat) (hs : sameKey r s v sc slow)
    (l : List Phase) (m : apiCallMetrics) :
    runPhases lat cnt slow m (Phase.lat :: Phase.slow :: l)
      = runPhases lat cnt slow m (Phase.slow :: Phase.lat :: l) := by
  simp only [runPhases, applyPhase]
  rw [← applyLat_applySlow_comm r s v sc lat slow hl hs m]
  cases happ : applyLatencySamples m lat <;> simp [Except.map, happ, runPhases]

/-- Swapping adjacent count and slow-count passes does not change the run. -/
theorem runPhases_swap_cnt_slow (r s v sc : String) (lat cnt slow : List Sample)
    (hc : sameKey r s v sc cnt) (hs : sameKey r s v sc slow)
    (l : List Phase) (m : apiCallMetrics) :
    runPhases lat cnt slow m (Phase.cnt :: Phase.slow :: l)
      = runPhases lat cnt slow m (Phase.slow :: Phase.cnt :: l) := by
  simp only [runPhases, applyPhase]
  rw [applyCnt_applySlow_comm r s v sc cnt slow hc hs m]

/-- Any permutation of the phase order yields the same run result. -/
theorem runPhases_perm (r s v sc : String) (lat cnt slow : List Sample)
    (hl : sameKey r s v sc lat) (hc : sameKey r s v sc cnt) (hs : sameKey r s v sc slow)
    {l1 l2 : List Phase} (hperm : l1.Perm l2) :
    ∀ m : apiCallMetrics, runPhases lat cnt slow m l1 = runPhases lat cnt slow m l2 := by
  induction hperm with
  | nil => intro m; rfl
  | cons p hperm ih =>
    intro m
    simp only [runPhases]
    cases hap : applyPhase lat cnt slow m p with
    | error e => rfl
    | ok m2 => exact ih m2
  | swap p q l =>
    intro m
    cases q <;> cases p
    · rfl
    · exact runPhases_swap_lat_cnt r s v sc lat cnt slow hl hc l m
    · exact runPhases_swap_lat_slow r s v sc lat cnt slow hl hs l m
    · exact (runPhases_swap_lat_cnt r s v sc lat cnt slow hl hc l m).symm
    · rfl
    · exact runPhases_swap_cnt_slow r s v sc lat cnt slow hc hs l m
    · exact (runPhases_swap_lat_slow r s v sc lat cnt slow hl hs l m).symm
    · exact (runPhases_swap_cnt_slow r s v sc lat cnt slow hc hs l m).symm
    · rfl
  | trans h1 h2 ih1 ih2 =>
    intro m
    exact (ih1 m).trans (ih2 m)

/-- Running the phases in the code's order (latency, count, slow count)
from the empty mapping is exactly `newFromSamples`. -/
theorem runPhases_code_order (lat cnt slow : List Sample) :
    runPhases lat cnt slow ⟨[]⟩ [Phase.lat, Phase.cnt, Phase.slow]
      = newFromSamples lat cnt slow := by
  unfold newFromSamples
  simp only [runPhases, applyPhase]

/-- Rewriting the sole entry of a one-entry mapping. -/
theorem setCall_single_self (k : String) (c b : apiCallMetric) :
    setCall [(k, c)] k b = [(k, b)] := by
  simp [setCall]

/-- A latency update keeps the single-key shape and leaves the mapping
nonempty. -/
theorem setLatency_shape (r s v sc : String) (m : apiCallMetrics)
    (h : singleKeyShape (buildKey r s v sc) m) (q : ℚ) (d : Int) :
    singleKeyShape (buildKey r s v sc) (m.SetLatency r s v sc q d) ∧
    (m.SetLatency r s v sc q d).metrics ≠ [] := by
  rcases h with h | ⟨c, h⟩
  · have hf : findCall m.metrics (buildKey r s v sc) = none := by rw [h]; rfl
    rw [setLatency_of_none hf]
    exact ⟨Or.inr ⟨_, by rw [h]; rfl⟩, by simp [h]⟩
  · have hf : findCall m.metrics (buildKey r s v sc) = some c := by rw [h]; simp [findCall]
    rw [setLatency_of_found hf]
    exact ⟨Or.inr ⟨_, by rw [h, setCall_single_self]⟩, by rw [h]; simp [setCall]⟩

/-- A count update keeps the single-key shape; the result is empty exactly
when the mapping was empty and the update was zero. -/
theorem setCount_shape (r s v sc : String) (m : apiCallMetrics)
    (h : singleKeyShape (buildKey r s v sc) m) (n : Int) :
    singleKeyShape (buildKey r s v sc) (m.SetCount r s v sc n) ∧
    ((m.SetCount r s v sc n).metrics = [] ↔ (m.metrics = [] ∧ n = 0)) := by
  by_cases hn : n = 0
  · subst hn
    rw [setCount_zero]
    exact ⟨h, by simp⟩
  · rcases h with h | ⟨c, h⟩
    · have hf : findCall m.metrics (buildKey r s v sc) = none := by rw [h]; rfl
      rw [setCount_of_none hf hn]
      exact ⟨Or.inr ⟨_, by rw [h]; rfl⟩, by simp [h, hn]⟩
    · have hf : findCall m.metrics (buildKey r s v sc) = some c := by rw [h]; simp [findCall]
      rw [setCount_of_found hf hn]
      exact ⟨Or.inr ⟨_, by rw [h, setCall_single_self]⟩, by rw [h]; simp [setCall, hn]⟩

/-- A slow-count update keeps the single-key shape; the result is empty
exactly when the mapping was empty and the update was zero. -/
theorem setSlowCount_shape (r s v sc : String) (m : apiCallMetrics)
    (h : singleKeyShape (buildKey r s v sc) m) (n : Int) :
    singleKeyShape (buildKey r s v sc) (m.SetSlowCount r s v sc n) ∧
    ((m.SetSlowCount r s v sc n).metrics = [] ↔ (m.metrics = [] ∧ n = 0)) := by
  by_cases hn : n = 0
  · subst hn
    rw [setSlowCount_zero]
    exact ⟨h, by simp⟩
  · rcases h with h | ⟨c, h⟩
    · have hf : findCall m.metrics (buildKey r s v sc) = none := by rw [h]; rfl
      rw [setSlowCount_of_none hf hn]
      exact ⟨Or.inr ⟨_, by rw [h]; rfl⟩, by simp [h, hn]⟩
    · have hf : findCall m.metrics (buildKey r s v sc) = some c := by rw [h]; simp [findCall]
      rw [setSlowCount_of_found hf hn]
      exact ⟨Or.inr ⟨_, by rw [h, setCall_single_self]⟩, by rw [h]; simp [setCall, hn]⟩

/-- A count pass keeps the single-key shape; the result is empty exactly
when the mapping was empty and every count rounds to zero. -/
theorem applyCountSamples_shape (r s v sc : String) (cnt : List Sample)
    (hc : sameKey r s v sc cnt) :
    ∀ m : apiCallMetrics, singleKeyShape (buildKey r s v sc) m →
      singleKeyShape (buildKey r s v sc) (applyCountSamples m cnt) ∧
      ((applyCountSamples m cnt).metrics = []
        ↔ (m.metrics = [] ∧ ∀ x ∈ cnt, goRound x.value = 0)) := by
  induction cnt with
  | nil => exact fun m h => ⟨h, by simp [applyCountSamples]⟩
  | cons x rest ih =>
    intro m h
    obtain ⟨hr, hs', hv, hsc⟩ := hc x (by simp)
    have hrest : sameKey r s v sc rest := fun y hy => hc y (by simp [hy])
    have step : applyCountSamples m (x :: rest)
        = applyCountSamples (m.SetCount x.resource x.subresource x.verb x.scope
            (goRound x.value)) rest := rfl
    rw [step, hr, hs', hv, hsc]
    obtain ⟨hsh, hiff⟩ := setCount_shape r s v sc m h (goRound x.value)
    obtain ⟨hsh2, hiff2⟩ := ih hrest _ hsh
    refine ⟨hsh2, ?_⟩
    rw [hiff2, hiff]
    simp only [List.forall_mem_cons]
    exact ⟨fun ⟨⟨a, b⟩, c2⟩ => ⟨a, b, c2⟩, fun ⟨a, b, c2⟩ => ⟨⟨a, b⟩, c2⟩⟩

/-- A slow-count pass keeps the single-key shape; the result is empty
exactly when the mapping was empty and every slow count rounds to zero. -/
theorem applySlowCountSamples_shape (r s v sc : String) (slow : List Sample)
    (hs : sameKey r s v sc slow) :
    ∀ m : apiCallMetrics, singleKeyShape (buildKey r s v sc) m →
      singleKeyShape (buildKey r s v sc) (applySlowCountSamples m slow) ∧
      ((applySlowCountSamples m slow).metrics = []
        ↔ (m.metrics = [] ∧ ∀ x ∈ slow, goRound x.value = 0)) := by
  induction slow with
  | nil => exact fun m h => ⟨h, by simp [applySlowCountSamples]⟩
  | cons x rest ih =>
    intro m h
    obtain ⟨hr, hs', hv, hsc⟩ := hs x (by simp)
    have hrest : sameKey r s v sc rest := fun y hy => hs y (by simp [hy])
    have step : applySlowCountSamples m (x :: rest)
        = applySlowCountSamples (m.SetSlowCount x.resource x.subresource x.verb x.scope
            (goRound x.value)) rest := rfl
    rw [step, hr, hs', hv, hsc]
    obtain ⟨hsh, hiff⟩ := setSlowCount_shape r s v sc m h (goRound x.value)
    obtain ⟨hsh2, hiff2⟩ := ih hrest _ hsh
    refine ⟨hsh2, ?_⟩
    rw [hiff2, hiff]
    simp only [List.forall_mem_cons]
    exact ⟨fun ⟨⟨a, b⟩, c2⟩ => ⟨a, b, c2⟩, fun ⟨a, b, c2⟩ => ⟨⟨a, b⟩, c2⟩⟩

/-- A successful latency pass keeps the single-key shape; the result is
empty exactly when the mapping was empty and there were no latency
samples. -/
theorem applyLatencySamples_shape (r s v sc : String) (lat : List Sample)
    (hl : sameKey r s v sc lat) :
    ∀ m m2 : apiCallMetrics, singleKeyShape (buildKey r s v sc) m →
      applyLatencySamples m lat = .ok m2 →
      singleKeyShape (buildKey r s v sc) m2 ∧
      (m2.metrics = [] ↔ (m.metrics = [] ∧ lat = [])) := by
  induction lat with
  | nil =>
    intro m m2 h hok
    simp only [applyLatencySamples, Except.ok.injEq] at hok
    subst hok
    exact ⟨h, by simp⟩
  | cons x rest ih =>
    intro m m2 h hok
    obtain ⟨hr, hs', hv, hsc⟩ := hl x (by simp)
    have hrest : sameKey r s v sc rest := fun y hy => hl y (by simp [hy])
    cases hq : x.quantile with
    | none => simp [applyLatencySamples, hq] at hok
    | some q =>
      simp only [applyLatencySamples, hq] at hok
      rw [hr, hs', hv, hsc] at hok
      obtain ⟨hshL, hneL⟩ := setLatency_shape r s v sc m h q (durationOfSeconds x.value)
      obtain ⟨hsh2, hiff2⟩ := ih hrest _ m2 hshL hok
      refine ⟨hsh2, ?_⟩
      rw [hiff2]
      simp [hneL]

/-- Counterexample to claim C4 as stated: all three sample sets share the
key (pods, "", GET, resource) — the count set holds one sample whose value
0 rounds to zero, the others are empty — yet the aggregate holds no record
for that key, not exactly one. -/
theorem C4_counterexample :
    sameKey "pods" "" "GET" "resource" ([] : List Sample) ∧
    sameKey "pods" "" "GET" "resource" [⟨"pods", "", "GET", "resource", none, 0⟩] ∧
    newFromSamples [] [⟨"pods", "", "GET", "resource", none, 0⟩] [] = .ok ⟨[]⟩ ∧
    ¬ ((⟨[]⟩ : apiCallMetrics).metrics.length = 1) :=
  ⟨by simp [sameKey], by simp [sameKey], rfl, by simp⟩

/-- Claim C4 (amended): for sample sets sharing key K, the aggregate holds
at most one record, all under K's composite key; it holds exactly one
record iff some latency sample exists or some count or slow-count sample
rounds to a nonzero value; and the whole result (hence every field of the
record) is the same for every arrival order of the three sample sets. -/
theorem C4_order_independent_merge (r s v sc : String) (lat cnt slow : List Sample)
    (hl : sameKey r s v sc lat) (hc : sameKey r s v sc cnt) (hs : sameKey r s v sc slow) :
    (∀ ord : List Phase, ord.Perm [Phase.lat, Phase.cnt, Phase.slow] →
      runPhases lat cnt slow ⟨[]⟩ ord = newFromSamples lat cnt slow) ∧
    (∀ m : apiCallMetrics, newFromSamples lat cnt slow = .ok m →
      (∀ e ∈ m.metrics, e.1 = buildKey r s v sc) ∧
      m.metrics.length ≤ 1 ∧
      (m.metrics.length = 1 ↔
        (lat ≠ [] ∨ (∃ x ∈ cnt, goRound x.value ≠ 0) ∨
          (∃ x ∈ slow, goRound x.value ≠ 0)))) := by
  constructor
  · intro ord hperm
    rw [← runPhases_code_order lat cnt slow]
    exact runPhases_perm r s v sc lat cnt slow hl hc hs hperm ⟨[]⟩
  · intro m hok
    unfold newFromSamples at hok
    cases hlat : applyLatencySamples ⟨[]⟩ lat with
    | error e =>
      rw [hlat] at hok
      exact absurd hok (by simp)
    | ok m1 =>
      rw [hlat] at hok
      simp only [Except.ok.injEq] at hok
      subst hok
      have h0 : singleKeyShape (buildKey r s v sc) ⟨[]⟩ := Or.inl rfl
      obtain ⟨sh1, iff1⟩ := applyLatencySamples_shape r s v sc lat hl ⟨[]⟩ m1 h0 hlat
      obtain ⟨sh2, iff2⟩ := applyCountSamples_shape r s v sc cnt hc m1 sh1
      obtain ⟨sh3, iff3⟩ := applySlowCountSamples_shape r s v sc slow hs _ sh2
      refine ⟨?_, ?_, ?_⟩
      · intro e he
        rcases sh3 with h3 | ⟨c, h3⟩
        · rw [h3] at he
          cases he
        · rw [h3] at he
          simp only [List.mem_singleton] at he
          rw [he]
      · rcases sh3 with h3 | ⟨c, h3⟩ <;> simp [h3]
      · have hone :
            ((applySlowCountSamples (applyCountSamples m1 cnt) slow).metrics.length = 1)
              ↔ ¬ ((applySlowCountSamples (applyCountSamples m1 cnt) slow).metrics
                    = []) := by
          rcases sh3 with h3 | ⟨c, h3⟩ <;> simp [h3]
        rw [hone, iff3, iff2, iff1]
        constructor
        · intro hne'
          by_contra hcon
          push_neg at hcon
          exact hne' ⟨⟨⟨rfl, hcon.1⟩, hcon.2.1⟩, hcon.2.2⟩
        · rintro (h1 | ⟨x, hx, hxv⟩ | ⟨x, hx, hxv⟩) ⟨⟨⟨_, hlat0⟩, hcnt0⟩, hslow0⟩
          · exact h1 hlat0
          · exact hxv (hcnt0 x hx)
          · exact hxv (hslow0 x hx)

/-- Witness for C4: a one-latency-sample, one-count-sample instance run
with the count pass first equals the code-order aggregation. -/
theorem C4_order_independent_merge_witness :
    runPhases
      [⟨"pods", "", "GET", "resource", some (mkRat 99 100), mkRat 1 2⟩]
      [⟨"pods", "", "GET", "resource", none, 3⟩] [] ⟨[]⟩
      [Phase.cnt, Phase.lat, Phase.slow]
      = newFromSamples
          [⟨"pods", "", "GET", "resource", some (mkRat 99 100), mkRat 1 2⟩]
          [⟨"pods", "", "GET", "resource", none, 3⟩] [] :=
  (C4_order_independent_merge "pods" "" "GET" "resource" _ _ _
      (by simp [sameKey]) (by simp [sameKey]) (by simp [sameKey])).1
    [Phase.cnt, Phase.lat, Phase.slow]
    (List.Perm.swap Phase.lat Phase.cnt [Phase.slow])
